import Mathlib

/-!
Verification development for the JSON-Schema → Zod translator
(`src/JsonToZod.ts`, first definition set, lines 1–297).

The TypeScript source is shallowly embedded: the parsed JSON-Schema
document becomes the inductive `JsonSchema`; `JSON.stringify` of a schema
node becomes `serialize`; the discovery pass `findSubSchemas`, the
translator `jsonSchemaToZod` and the emitter `generateZodSchema` are
translated function by function.  JavaScript truthiness of the optional
fields is modelled explicitly (an absent field is `none`; an empty string
is falsy; an empty list — a JS `[]` or `\x7b\x7d` value — is truthy).
JS `Map`s are modelled as insertion-ordered association lists, matching
the iteration order the source relies on.

The translator recurses on a node rebuilt with a replaced `type` field,
so it is defined through a fuel-indexed kernel (`jszFuel`), structurally
recursive on the fuel, and wrapped with an always-sufficient fuel value
(`jsonSchemaToZod`).  `jszBody` is the literal body of the source
function, with the recursive occurrence abstracted as `rec`.
-/

/-- Single quote character, used when building generated-code text. -/
def sqc : String := String.mk [Char.ofNat 39]

/-- Boolean prefix test on character lists. -/
def listStartsWith : List Char → List Char → Bool
  | [], _ => true
  | _ :: _, [] => false
  | a :: as, b :: bs => a == b && listStartsWith as bs

/-- Substring test on character lists (JS `String.prototype.includes`). -/
def listContains (l pat : List Char) : Bool :=
  if listStartsWith pat l then true
  else match l with
    | [] => false
    | _ :: rest => listContains rest pat

/-- JS `s.includes(pat)`. -/
def strContains (s pat : String) : Bool := listContains s.data pat.data

/-- JS `s.toLowerCase()` (ASCII, which is all the source compares). -/
def strToLower (s : String) : String := String.mk (s.data.map Char.toLower)

/-- JS `s.endsWith(pat)`. -/
def strEndsWith (s pat : String) : Bool := listStartsWith pat.data.reverse s.data.reverse

/-- JS `s.split(sep)` for a single-character separator. -/
def splitOnCharAux (sep : Char) : List Char → List Char → List String
  | [], acc => [String.mk acc.reverse]
  | c :: rest, acc =>
    if c == sep then String.mk acc.reverse :: splitOnCharAux sep rest []
    else splitOnCharAux sep rest (c :: acc)

/-- JS `s.split(sep)` for a single-character separator. -/
def splitOnChar (s : String) (sep : Char) : List String := splitOnCharAux sep s.data []

/-- A separator character of the `/[_\s-]+/` regex in `toPascalCase`. -/
def isSep (c : Char) : Bool := c == '_' || c == ' ' || c == '\t' || c == '\n' || c == '\r' || c == '-'

mutual
/-- JS `s.split(/[_\s-]+/)`: a run of separators closes the current word. -/
def splitSepsAux : List Char → List Char → List String
  | [], acc => [String.mk acc.reverse]
  | c :: rest, acc =>
    if isSep c then String.mk acc.reverse :: splitSepsSkip rest
    else splitSepsAux rest (c :: acc)

/-- Skips the remainder of a separator run. -/
def splitSepsSkip : List Char → List String
  | [] => [""]
  | c :: rest => if isSep c then splitSepsSkip rest else splitSepsAux rest [c]
end

/-- `word.charAt(0).toUpperCase() + word.slice(1).toLowerCase()`. -/
def capitalizeWord (w : String) : String :=
  match w.data with
  | [] => ""
  | c :: rest => String.mk (c.toUpper :: (rest.map Char.toLower))

/-- `toPascalCase` of the source (split on `[_\s-]+`, capitalize, join). -/
def toPascalCase (str : String) : String :=
  String.join ((splitSepsAux str.data []).map capitalizeWord)

/-- `generateSchemaName`: drop empty/`items`/`properties` segments, Pascal-case
the last one, append `Schema`; `Schema` when nothing remains. -/
def generateSchemaName (pathStr : String) : String :=
  let parts := (splitOnChar pathStr '.').filter
    (fun p => p != "" && p != "items" && p != "properties")
  match parts.getLast? with
  | none => "Schema"
  | some lastPart => toPascalCase lastPart ++ "Schema"

/-- Hexadecimal digit (lowercase), for JSON control-character escapes. -/
def hexDigit (n : Nat) : Char :=
  if n < 10 then Char.ofNat (48 + n) else Char.ofNat (87 + n)

/-- `JSON.stringify` escaping of one character inside a string literal. -/
def jsonEscapeChar (c : Char) : String :=
  if c == '"' then "\\\""
  else if c == '\\' then "\\\\"
  else if c == '\x08' then "\\b"
  else if c == '\t' then "\\t"
  else if c == '\n' then "\\n"
  else if c == '\x0c' then "\\f"
  else if c == '\r' then "\\r"
  else if c.toNat < 32 then
    "\\u00" ++ String.mk [hexDigit (c.toNat / 16), hexDigit (c.toNat % 16)]
  else String.mk [c]

/-- `JSON.stringify` of a string value. -/
def jsonStringify (s : String) : String :=
  "\"" ++ String.join (s.data.map jsonEscapeChar) ++ "\""

/-- First character of the `^[a-zA-Z_$][a-zA-Z0-9_$]*$` identifier regex. -/
def isIdentStart (c : Char) : Bool :=
  ('a' ≤ c && c ≤ 'z') || ('A' ≤ c && c ≤ 'Z') || c == '_' || c == '$'

/-- Continuation character of the identifier regex. -/
def isIdentChar (c : Char) : Bool :=
  isIdentStart c || ('0' ≤ c && c ≤ '9')

/-- `isValidIdentifier`: the name matches `^[a-zA-Z_$][a-zA-Z0-9_$]*$`. -/
def isValidIdentifier (name : String) : Bool :=
  match name.data with
  | [] => false
  | c :: rest => isIdentStart c && rest.all isIdentChar

/-- `formatPropertyName`: valid identifiers stay bare, all other property
names are JSON-quoted. -/
def formatPropertyName (name : String) : String :=
  if isValidIdentifier name then name else jsonStringify name

/-- JS `s.replace(pat, repl)` with a plain-string pattern: first occurrence
only. -/
def replaceFirstAux (pat repl : List Char) : List Char → List Char
  | [] => []
  | c :: cs =>
    if listStartsWith pat (c :: cs) then repl ++ (c :: cs).drop pat.length
    else c :: replaceFirstAux pat repl cs

/-- JS `s.replace(pat, repl)` with a plain-string pattern. -/
def replaceFirst (s pat repl : String) : String :=
  String.mk (replaceFirstAux pat.data repl.data s.data)

/-- `'  '.repeat(depth)`. -/
def indentOf (d : Nat) : String := String.join (List.replicate d "  ")

/-- The `type` field of a schema node: a single tag or an array of tags. -/
inductive TypeSpec where
  | single (t : String)
  | multi (ts : List String)
deriving DecidableEq, Repr

/-- A JSON literal as it can appear in an `enum` list. -/
inductive JsonLit where
  | str (s : String)
  | num (n : Int)
  | bool (b : Bool)
  | null
deriving DecidableEq, Repr

/-- `JSON.stringify` of an enum literal. -/
def JsonLit.stringify : JsonLit → String
  | .str s => jsonStringify s
  | .num n => toString n
  | .bool b => if b then "true" else "false"
  | .null => "null"

/-- The `JsonSchema` interface of the source: every field optional, the
`properties` mapping insertion-ordered.  `additionalProperties` is a
boolean or a nested schema (`Sum Bool JsonSchema`). -/
inductive JsonSchema where
  | mk (type : Option TypeSpec)
       (properties : Option (List (String × JsonSchema)))
       (items : Option JsonSchema)
       (required : Option (List String))
       (enum : Option (List JsonLit))
       (pattern : Option String)
       (minimum : Option Int)
       (maximum : Option Int)
       (minItems : Option Nat)
       (maxItems : Option Nat)
       (format : Option String)
       (description : Option String)
       (additionalProperties : Option (Sum Bool JsonSchema))
deriving Repr

namespace JsonSchema

def type : JsonSchema → Option TypeSpec
  | .mk t _ _ _ _ _ _ _ _ _ _ _ _ => t

def properties : JsonSchema → Option (List (String × JsonSchema))
  | .mk _ p _ _ _ _ _ _ _ _ _ _ _ => p

def items : JsonSchema → Option JsonSchema
  | .mk _ _ i _ _ _ _ _ _ _ _ _ _ => i

def required : JsonSchema → Option (List String)
  | .mk _ _ _ r _ _ _ _ _ _ _ _ _ => r

def enum : JsonSchema → Option (List JsonLit)
  | .mk _ _ _ _ e _ _ _ _ _ _ _ _ => e

def pattern : JsonSchema → Option String
  | .mk _ _ _ _ _ p _ _ _ _ _ _ _ => p

def minimum : JsonSchema → Option Int
  | .mk _ _ _ _ _ _ m _ _ _ _ _ _ => m

def maximum : JsonSchema → Option Int
  | .mk _ _ _ _ _ _ _ m _ _ _ _ _ => m

def minItems : JsonSchema → Option Nat
  | .mk _ _ _ _ _ _ _ _ m _ _ _ _ => m

def maxItems : JsonSchema → Option Nat
  | .mk _ _ _ _ _ _ _ _ _ m _ _ _ => m

def format : JsonSchema → Option String
  | .mk _ _ _ _ _ _ _ _ _ _ f _ _ => f

def description : JsonSchema → Option String
  | .mk _ _ _ _ _ _ _ _ _ _ _ d _ => d

def additionalProperties : JsonSchema → Option (Sum Bool JsonSchema)
  | .mk _ _ _ _ _ _ _ _ _ _ _ _ a => a

/-- The spread `\x7b ...schema, type: X \x7d` of the source: same node with
the `type` field replaced. -/
def withType : JsonSchema → Option TypeSpec → JsonSchema
  | .mk _ p i r e pa mn mx mni mxi f d a, t => .mk t p i r e pa mn mx mni mxi f d a

end JsonSchema

mutual
/-- `JSON.stringify(schema)`: the node's signature.  Field order follows
the `JsonSchema` interface declaration; absent (`none`) fields are
omitted, as `JSON.stringify` omits `undefined` properties. -/
def serialize : JsonSchema → String
  | .mk t props items req en pat mn mx mni mxi fmt desc ap =>
    let typePart : List String := match t with
      | none => []
      | some (.single tt) => ["\"type\":" ++ jsonStringify tt]
      | some (.multi ts) =>
        ["\"type\":[" ++ String.intercalate "," (ts.map jsonStringify) ++ "]"]
    let propsPart : List String := match props with
      | none => []
      | some ps => ["\"properties\":\x7b" ++ serializeProps ps ++ "\x7d"]
    let itemsPart : List String := match items with
      | none => []
      | some i => ["\"items\":" ++ serialize i]
    let reqPart : List String := match req with
      | none => []
      | some r => ["\"required\":[" ++ String.intercalate "," (r.map jsonStringify) ++ "]"]
    let enumPart : List String := match en with
      | none => []
      | some es => ["\"enum\":[" ++ String.intercalate "," (es.map JsonLit.stringify) ++ "]"]
    let patPart : List String := match pat with
      | none => []
      | some p => ["\"pattern\":" ++ jsonStringify p]
    let minPart : List String := match mn with
      | none => []
      | some m => ["\"minimum\":" ++ toString m]
    let maxPart : List String := match mx with
      | none => []
      | some m => ["\"maximum\":" ++ toString m]
    let miniPart : List String := match mni with
      | none => []
      | some m => ["\"minItems\":" ++ toString m]
    let maxiPart : List String := match mxi with
      | none => []
      | some m => ["\"maxItems\":" ++ toString m]
    let fmtPart : List String := match fmt with
      | none => []
      | some f => ["\"format\":" ++ jsonStringify f]
    let descPart : List String := match desc with
      | none => []
      | some d => ["\"description\":" ++ jsonStringify d]
    let apPart : List String := match ap with
      | none => []
      | some (.inl b) => ["\"additionalProperties\":" ++ (if b then "true" else "false")]
      | some (.inr a) => ["\"additionalProperties\":" ++ serialize a]
    "\x7b" ++ String.intercalate ","
      (typePart ++ propsPart ++ itemsPart ++ reqPart ++ enumPart ++ patPart ++
       minPart ++ maxPart ++ miniPart ++ maxiPart ++ fmtPart ++ descPart ++ apPart) ++ "\x7d"

/-- Serialization of a `properties` mapping (comma-joined key/value pairs). -/
def serializeProps : List (String × JsonSchema) → String
  | [] => ""
  | [(k, v)] => jsonStringify k ++ ":" ++ serialize v
  | (k, v) :: rest => jsonStringify k ++ ":" ++ serialize v ++ "," ++ serializeProps rest
end

mutual
/-- Size measure of a schema node, used as translation fuel: strictly
larger than the measure of every node the translator recurses into,
including the same node with a `multi` type specifier replaced by a
`single` one. -/
def weight : JsonSchema → Nat
  | .mk t props items _ _ _ _ _ _ _ _ _ ap =>
      1 + typeWeight t + weightOptProps props + weightOptSchema items + weightAP ap

/-- `multi` weighs more than `single`, so collapsing a multi-type node to a
single-type variant shrinks the measure. -/
def typeWeight : Option TypeSpec → Nat
  | none => 0
  | some (.single _) => 1
  | some (.multi _) => 2

def weightOptProps : Option (List (String × JsonSchema)) → Nat
  | none => 0
  | some ps => 1 + weightProps ps

def weightProps : List (String × JsonSchema) → Nat
  | [] => 0
  | (_, v) :: rest => 1 + weight v + weightProps rest

def weightOptSchema : Option JsonSchema → Nat
  | none => 0
  | some s => 1 + weight s

def weightAP : Option (Sum Bool JsonSchema) → Nat
  | none => 0
  | some (.inl _) => 0
  | some (.inr s) => 1 + weight s
end

/-- A discovered sub-schema entry (`interface SubSchema`). -/
structure SubSchema where
  name : String
  schema : JsonSchema
  path : String
deriving Repr

/-- The registry lookup loop of the translator:
`for (const [key, subSchema] of subSchemas.entries()) if (key === schemaStr) return subSchema.name`.
A JS `Map` iterates in insertion order, so the registry is an
insertion-ordered association list. -/
def lookupReg : List (String × SubSchema) → String → Option String
  | [], _ => none
  | (k, e) :: rest, sig => if k == sig then some e.name else lookupReg rest sig

/-- The registration step of `findSubSchemas` (lines 60–69 of the source):
an unvisited signature at a dotted path is registered under its candidate
name unless an already-discovered entry carries that name; the visited
set is extended only together with a successful registration. -/
def registerStep (s : JsonSchema) (currentPath : String)
    (subs : List (String × SubSchema)) (visited : List String) :
    List (String × SubSchema) × List String :=
  let schemaStr := serialize s
  if !(visited.contains schemaStr) && strContains currentPath "." then
    let name := generateSchemaName currentPath
    if !(subs.any (fun e => e.2.name == name)) then
      (subs ++ [(schemaStr, ⟨name, s, currentPath⟩)], visited ++ [schemaStr])
    else (subs, visited)
  else (subs, visited)

mutual
/-- `findSubSchemas`: depth-first pre-order walk.  The source's
`if (schema.type === 'object' && schema.properties)` branch attempts
registration and recurses into every property; its
`else if (schema.type === 'array' && schema.items)` branch recurses into
the element schema with the path extended by `items`.  The discovery map
and visited set are threaded as explicit state. -/
def findSubSchemas : JsonSchema → List (String × SubSchema) → String → List String →
    List (String × SubSchema) × List String
  | s@(.mk t props items _ _ _ _ _ _ _ _ _ _), subs, currentPath, visited =>
    if t == some (.single "object") then
      match props with
      | some ps =>
        let st := registerStep s currentPath subs visited
        findSubList ps st.1 currentPath st.2
      | none => (subs, visited)
    else if t == some (.single "array") then
      match items with
      | some it => findSubSchemas it subs (currentPath ++ ".items") visited
      | none => (subs, visited)
    else (subs, visited)

/-- The `Object.entries(schema.properties).forEach` loop of the walk. -/
def findSubList : List (String × JsonSchema) → List (String × SubSchema) → String →
    List String → List (String × SubSchema) × List String
  | [], subs, _, visited => (subs, visited)
  | (k, v) :: rest, subs, currentPath, visited =>
    let st := findSubSchemas v subs (currentPath ++ "." ++ k) visited
    findSubList rest st.1 currentPath st.2
end

/-- JS truthiness of an optional string field (absent or empty is falsy). -/
def strTruthy : Option String → Bool
  | none => false
  | some s => s != ""

/-- `if (schema.description) result += .describe(JSON.stringify(...))`,
the suffix step shared by most branches of the translator. -/
def appendDescribe (desc : Option String) (r : String) : String :=
  if strTruthy desc then r ++ ".describe(" ++ jsonStringify (desc.getD "") ++ ")"
  else r

/-- The type of the translator, used to abstract its recursive occurrence. -/
abbrev TransFn := JsonSchema → Nat → Option (List (String × SubSchema)) → Option String → String

/-- The string case of the translator's type switch (source lines 135–160):
UUID pattern, generic pattern, field-name UUID heuristic, date-time
format, description.  No recursion. -/
def jszString (s : JsonSchema) (fieldName : Option String) : String :=
  let zs := "z.string()"
  let zs :=
    if strTruthy s.pattern && strContains (s.pattern.getD "") "[0-9a-fA-F]\x7b8\x7d" then
      zs ++ ".uuid()"
    else if strTruthy s.pattern then
      zs ++ ".regex(/" ++ s.pattern.getD "" ++ "/)"
    else if strTruthy fieldName &&
        (strToLower (fieldName.getD "") == "uuid" ||
         strEndsWith (strToLower (fieldName.getD "")) "_id" ||
         strContains (strToLower (fieldName.getD "")) "uuid" ||
         strContains (strToLower (fieldName.getD "")) "guid") then
      zs ++ ".uuid()"
    else zs
  let zs := if s.format == some "date-time" then zs ++ ".datetime()" else zs
  appendDescribe s.description zs

/-- The number/integer case of the type switch (source lines 162–174). -/
def jszNumber (s : JsonSchema) (tt : String) : String :=
  let zn := if tt == "integer" then "z.number().int()" else "z.number()"
  let zn := match s.minimum with
    | some m => zn ++ ".min(" ++ toString m ++ ")"
    | none => zn
  let zn := match s.maximum with
    | some m => zn ++ ".max(" ++ toString m ++ ")"
    | none => zn
  appendDescribe s.description zn

/-- The array case of the type switch (source lines 186–204). -/
def jszArray (rec : TransFn) (s : JsonSchema) (depth : Nat)
    (subSchemas : Option (List (String × SubSchema))) : String :=
  match s.items with
  | some it =>
    let za := "z.array(" ++ rec it depth subSchemas none ++ ")"
    let za := match s.minItems, s.maxItems with
      | some a, some b =>
        if a == b then za ++ ".length(" ++ toString a ++ ")"
        else za ++ ".min(" ++ toString a ++ ")" ++ ".max(" ++ toString b ++ ")"
      | some a, none => za ++ ".min(" ++ toString a ++ ")"
      | none, some b => za ++ ".max(" ++ toString b ++ ")"
      | none, none => za
    appendDescribe s.description za
  | none => "z.array(z.any())"

/-- The field line emitted for one property of an object node
(source lines 209–214). -/
def jszField (rec : TransFn) (s : JsonSchema) (depth : Nat)
    (subSchemas : Option (List (String × SubSchema))) (kv : String × JsonSchema) : String :=
  indentOf depth ++ "  " ++ formatPropertyName kv.1 ++ ": " ++
  rec kv.2 (depth + 1) subSchemas (some kv.1) ++
  (if (s.required.getD []).contains kv.1 then "" else ".optional()")

/-- The object case of the type switch (source lines 206–229). -/
def jszObject (rec : TransFn) (s : JsonSchema) (depth : Nat)
    (subSchemas : Option (List (String × SubSchema))) : String :=
  match s.properties with
  | some ps =>
    let propsStr := String.intercalate ",\n" (ps.map (jszField rec s depth subSchemas))
    appendDescribe s.description
      ("z.object(\x7b\n" ++ propsStr ++ "\n" ++ indentOf depth ++ "\x7d)")
  | none =>
    match s.additionalProperties with
    | some (.inr apS) => "z.record(" ++ rec apS depth subSchemas none ++ ")"
    | some (.inl true) => "z.record(z.string())"
    | _ => "z.object(\x7b\x7d)"

/-- Multi-type handling of the translator (source lines 98–123): a `some`
result is returned outright, `none` falls through to the enum check and
type switch. -/
def jszMulti (rec : TransFn) (s : JsonSchema) (depth : Nat)
    (subSchemas : Option (List (String × SubSchema))) (fieldName : Option String) :
    Option String :=
  match s.type with
  | some (.multi types) =>
    let hasNull := types.contains "null"
    let nonNull := types.filter (fun t => t != "null")
    if nonNull.length == 1 && hasNull then
      some (rec (s.withType (some (.single (nonNull.headD "")))) depth subSchemas fieldName
            ++ ".nullable()")
    else if 1 < nonNull.length then
      let unionTypes := nonNull.map
        (fun t => rec (s.withType (some (.single t))) depth subSchemas fieldName)
      let r0 := "z.union([" ++ String.intercalate ", " unionTypes ++ "])"
      let r1 := if hasNull then r0 ++ ".nullable()" else r0
      some (appendDescribe s.description r1)
    else none
  | _ => none

/-- Enum check and `switch (schema.type)` of the translator (source lines
125–233).  The switch's string cases are an if-chain on the single type
tag; a multi-type specifier that fell through the multi-type handling
matches no case and lands in the permissive default, as in JS. -/
def jszSwitch (rec : TransFn) (s : JsonSchema) (depth : Nat)
    (subSchemas : Option (List (String × SubSchema))) (fieldName : Option String) : String :=
  if s.enum.isSome then
    appendDescribe s.description
      ("z.enum([" ++ String.intercalate ", " ((s.enum.getD []).map JsonLit.stringify) ++ "])")
  else
    match s.type with
    | some (.single tt) =>
      if tt == "string" then jszString s fieldName
      else if tt == "number" || tt == "integer" then jszNumber s tt
      else if tt == "boolean" then appendDescribe s.description "z.boolean()"
      else if tt == "null" then "z.null()"
      else if tt == "array" then jszArray rec s depth subSchemas
      else if tt == "object" then jszObject rec s depth subSchemas
      else "z.any()"
    | _ => "z.any()"

/-- The substitution check at the top of the translator (source lines
87–95): the registry, when passed at all, is searched for the node's
signature. -/
def substOf (subSchemas : Option (List (String × SubSchema))) (s : JsonSchema) : Option String :=
  match subSchemas with
  | none => none
  | some r => lookupReg r (serialize s)

/-- One unfolding of the body of `jsonSchemaToZod` (source lines 79–234),
with the recursive occurrence abstracted as `rec`.  Decision order as in
the source: registry substitution, multi-type handling, enum, then the
type-tag switch. -/
def jszBody (rec : TransFn) (s : JsonSchema) (depth : Nat)
    (subSchemas : Option (List (String × SubSchema))) (fieldName : Option String) : String :=
  match substOf subSchemas s with
  | some name => name
  | none =>
    match jszMulti rec s depth subSchemas fieldName with
    | some r => r
    | none => jszSwitch rec s depth subSchemas fieldName

/-- Fuel-indexed translator kernel: each recursive call of the source
consumes one unit of fuel.  With fuel at least `weight s + 1` the zero
case is unreachable (`jszFuel_congr` below). -/
def jszFuel : Nat → JsonSchema → Nat → Option (List (String × SubSchema)) → Option String → String
  | 0, _, _, _, _ => ""
  | fuel + 1, s, depth, subSchemas, fieldName => jszBody (jszFuel fuel) s depth subSchemas fieldName

/-- `jsonSchemaToZod` of the source: the fuel kernel run with sufficient
fuel. -/
def jsonSchemaToZod (s : JsonSchema) (depth : Nat)
    (subSchemas : Option (List (String × SubSchema))) (fieldName : Option String) : String :=
  jszFuel (weight s + 1) s depth subSchemas fieldName

/-- Path depth used by the sub-schema sort (`path.split('.').length`). -/
def entryDepth (e : String × SubSchema) : Nat := (splitOnChar e.2.path '.').length

/-- Insert into a depth-descending list, after all entries of greater or
equal depth: the stable descending sort the source's
`sort((a, b) => depthB - depthA)` performs. -/
def insertEntryDesc (x : String × SubSchema) :
    List (String × SubSchema) → List (String × SubSchema)
  | [] => [x]
  | y :: ys => if entryDepth y < entryDepth x then x :: y :: ys else y :: insertEntryDesc x ys

/-- Stable sort of the discovered entries, deepest path first. -/
def sortEntriesDesc (l : List (String × SubSchema)) : List (String × SubSchema) :=
  l.foldl (fun acc x => insertEntryDesc x acc) []

/-- The per-entry translation loop of `generateZodSchema`: translates each
sorted entry against the registry built so far, appends its declaration,
then registers it.  Returns the final Processed Registry and the
accumulated declaration text. -/
def buildDecls (entries : List (String × SubSchema)) :
    List (String × SubSchema) × String :=
  entries.foldl (fun acc e =>
    let zodCode := jsonSchemaToZod e.2.schema 0 (some acc.1) none
    (acc.1 ++ [e], acc.2 ++ "const " ++ e.2.name ++ " = " ++ zodCode ++ ";\n\n"))
    ([], "")

/-- Entries discovered from the root document (walk started with empty
map, empty path, empty visited set). -/
def discoverEntries (doc : JsonSchema) : List (String × SubSchema) :=
  (findSubSchemas doc [] "" []).1

/-- Visited set after the full walk from the root. -/
def discoverVisited (doc : JsonSchema) : List String :=
  (findSubSchemas doc [] "" []).2

/-- The sorted entries of a document. -/
def sortedEntries (doc : JsonSchema) : List (String × SubSchema) :=
  sortEntriesDesc (discoverEntries doc)

/-- Final Processed Registry of a run. -/
def processedOf (doc : JsonSchema) : List (String × SubSchema) :=
  (buildDecls (sortedEntries doc)).1

/-- Concatenated sub-schema declarations of a run. -/
def subSchemaCodeOf (doc : JsonSchema) : String :=
  (buildDecls (sortedEntries doc)).2

/-- The root translation of a run, against the completed registry. -/
def rootCodeOf (doc : JsonSchema) : String :=
  jsonSchemaToZod doc 0 (some (processedOf doc)) none

/-- The type-alias exports (`name.replace('Schema', '')`, first occurrence
only, joined by newlines). -/
def typeExportsOf (entries : List (String × SubSchema)) : String :=
  String.intercalate "\n" (entries.map (fun e =>
    "export type " ++ replaceFirst e.2.name "Schema" "" ++
    " = z.infer<typeof " ++ e.2.name ++ ">;"))

/-- `generateZodSchema` minus its I/O boundary: the full output text
generated for a parsed document, given the basename of the input file. -/
def generateZodSchema (doc : JsonSchema) (basename : String) : String :=
  let subs := discoverEntries doc
  let sorted := sortEntriesDesc subs
  let built := buildDecls sorted
  let zodSchemaCode := jsonSchemaToZod doc 0 (some built.1) none
  let typeExports := typeExportsOf built.1
  "import \x7b z \x7d from " ++ sqc ++ "zod" ++ sqc ++ ";\n\n// Generated from: " ++
  basename ++ "\n" ++ built.2 ++ "export const schema = " ++ zodSchemaCode ++
  ";\n\nexport type SchemaType = z.infer<typeof schema>;\n" ++
  (if typeExports != "" then "\n" ++ typeExports else "") ++ "\n"

/-- Invariant of the discovery state: the discovery map's keys are exactly
the visited set in order, the visited signatures are pairwise distinct,
and the registered names are pairwise distinct. -/
def WalkInv (subs : List (String × SubSchema)) (visited : List String) : Prop :=
  subs.map Prod.fst = visited ∧ visited.Nodup ∧
  (subs.map (fun e => e.2.name)).Nodup

/-- Example node: `{"type":"string"}`. -/
def strNode : JsonSchema :=
  .mk (some (.single "string")) none none none none none none none none none none none none

/-- Example node: `{"type":"integer"}`. -/
def intNode : JsonSchema :=
  .mk (some (.single "integer")) none none none none none none none none none none none none

/-- Example node: `{"type":"boolean"}`. -/
def boolNode : JsonSchema :=
  .mk (some (.single "boolean")) none none none none none none none none none none none none

/-- Example non-root object node `{"type":"object","properties":{"a1":string}}`. -/
def obA : JsonSchema :=
  .mk (some (.single "object")) (some [("a1", strNode)]) none none none none none none none none none none none

/-- Example non-root object node, structurally different from `obA`. -/
def obB : JsonSchema :=
  .mk (some (.single "object")) (some [("b1", boolNode)]) none none none none none none none none none none none

/-- Wrapper object holding `obA` under property `x`. -/
def pNode : JsonSchema :=
  .mk (some (.single "object")) (some [("x", obA)]) none none none none none none none none none none none

/-- Wrapper object holding `obB` under property `x` (the same last path
segment as `pNode`'s `x`, which forces a candidate-name collision). -/
def qNode : JsonSchema :=
  .mk (some (.single "object")) (some [("x", obB)]) none none none none none none none none none none none

/-- Root document for the name-collision runs: `obB` occurs twice (at
`.q.x` and `.r.x`), both times under a property named `x`, whose
candidate name `XSchema` is taken by `obA` (first seen at `.p.x`). -/
def docPQR : JsonSchema :=
  .mk (some (.single "object")) (some [("p", pNode), ("q", qNode), ("r", qNode)])
    none none none none none none none none none none none

/-- Object node with a `uuid` property and required set `["uuid"]`. -/
def docC5 : JsonSchema :=
  .mk (some (.single "object")) (some [("uuid", strNode), ("note", strNode)])
    none (some ["uuid"]) none none none none none none none none none

/-- Array node with `minItems = maxItems = 3`. -/
def arrEq : JsonSchema :=
  .mk (some (.single "array")) none (some intNode) none none none none none
    (some 3) (some 3) none none none

/-- Array node with `minItems = 1`, `maxItems = 4`. -/
def arrNe : JsonSchema :=
  .mk (some (.single "array")) none (some intNode) none none none none none
    (some 1) (some 4) none none none

/-- Multi-type node `{"type":["string","null"],"format":"date-time"}`. -/
def nulStr : JsonSchema :=
  .mk (some (.multi ["string", "null"])) none none none none none none none none none
    (some "date-time") none none

/-- Object node with `additionalProperties: true` and no properties. -/
def apDoc : JsonSchema :=
  .mk (some (.single "object")) none none none none none none none none none none none
    (some (.inl true))

/-- Object node with a non-identifier property name. -/
def docDash : JsonSchema :=
  .mk (some (.single "object")) (some [("a-b", strNode), ("ok", strNode)])
    none none none none none none none none none none none

/-- A one-entry registry binding the signature of `strNode`. -/
def regW : List (String × SubSchema) :=
  [(serialize strNode, ⟨"FooSchema", strNode, ".foo"⟩)]

/-- A property value weighs less than the whole properties list. -/
theorem weight_mem_props {k : String} {v : JsonSchema} :
    ∀ ps : List (String × JsonSchema), (k, v) ∈ ps → weight v < 1 + weightProps ps := by
  intro ps
  induction ps with
  | nil => intro h; cases h
  | cons hd tl ih =>
    intro h
    rcases List.mem_cons.mp h with h1 | h1
    · subst h1
      simp only [weightProps]
      omega
    · have := ih h1
      obtain ⟨k0, v0⟩ := hd
      simp only [weightProps]
      omega

/-- Replacing a multi type specifier by a single one shrinks the measure. -/
theorem weight_withType_lt {s : JsonSchema} {ts : List String}
    (h : s.type = some (.multi ts)) (t : String) :
    weight (s.withType (some (.single t))) < weight s := by
  cases s with
  | mk ty p i r e pa mn mx mni mxi f d a =>
    simp only [JsonSchema.type] at h
    subst h
    simp only [JsonSchema.withType, weight, typeWeight]
    omega

/-- The element schema weighs less than the array node. -/
theorem weight_items_lt {s : JsonSchema} {i : JsonSchema}
    (h : s.items = some i) : weight i < weight s := by
  cases s with
  | mk ty p it r e pa mn mx mni mxi f d a =>
    simp only [JsonSchema.items] at h
    subst h
    simp only [weight, weightOptSchema]
    omega

/-- Each property value weighs less than the object node. -/
theorem weight_prop_lt {s : JsonSchema} {ps : List (String × JsonSchema)}
    {kv : String × JsonSchema} (h : s.properties = some ps) (hm : kv ∈ ps) :
    weight kv.2 < weight s := by
  cases s with
  | mk ty p it r e pa mn mx mni mxi f d a =>
    simp only [JsonSchema.properties] at h
    subst h
    obtain ⟨k1, v1⟩ := kv
    have := weight_mem_props ps hm
    simp only [weight, weightOptProps]
    omega

/-- An additionalProperties value schema weighs less than its node. -/
theorem weight_ap_lt {s : JsonSchema} {a : JsonSchema}
    (h : s.additionalProperties = some (.inr a)) : weight a < weight s := by
  cases s with
  | mk ty p it r e pa mn mx mni mxi f d ap =>
    simp only [JsonSchema.additionalProperties] at h
    subst h
    simp only [weight, weightAP]
    omega


/-- Agreement of two recursive occurrences on the array case. -/
theorem jszArray_congr (r1 r2 : TransFn) (s : JsonSchema) (d : Nat)
    (g : Option (List (String × SubSchema)))
    (h : ∀ s2 d2 g2 f2, weight s2 < weight s → r1 s2 d2 g2 f2 = r2 s2 d2 g2 f2) :
    jszArray r1 s d g = jszArray r2 s d g := by
  unfold jszArray
  cases hi : s.items with
  | none => rfl
  | some it => simp only [h it d g none (weight_items_lt hi)]

/-- Agreement of two recursive occurrences on the object case. -/
theorem jszObject_congr (r1 r2 : TransFn) (s : JsonSchema) (d : Nat)
    (g : Option (List (String × SubSchema)))
    (h : ∀ s2 d2 g2 f2, weight s2 < weight s → r1 s2 d2 g2 f2 = r2 s2 d2 g2 f2) :
    jszObject r1 s d g = jszObject r2 s d g := by
  unfold jszObject
  cases hp : s.properties with
  | some ps =>
    have hmap : ps.map (jszField r1 s d g) = ps.map (jszField r2 s d g) :=
      List.map_congr_left (fun kv hkv => by
        unfold jszField
        rw [h kv.2 (d + 1) g (some kv.1) (weight_prop_lt hp hkv)])
    simp only [hmap]
  | none =>
    cases hap : s.additionalProperties with
    | none => rfl
    | some v =>
      cases v with
      | inl b => cases b <;> rfl
      | inr apS => simp only [h apS d g none (weight_ap_lt hap)]

/-- Agreement of two recursive occurrences on multi-type handling. -/
theorem jszMulti_congr (r1 r2 : TransFn) (s : JsonSchema) (d : Nat)
    (g : Option (List (String × SubSchema))) (f : Option String)
    (h : ∀ s2 d2 g2 f2, weight s2 < weight s → r1 s2 d2 g2 f2 = r2 s2 d2 g2 f2) :
    jszMulti r1 s d g f = jszMulti r2 s d g f := by
  unfold jszMulti
  cases ht : s.type with
  | none => rfl
  | some tsp =>
    cases tsp with
    | single t => rfl
    | multi types =>
      have hmap : (types.filter (fun t => t != "null")).map
          (fun t => r1 (s.withType (some (.single t))) d g f)
          = (types.filter (fun t => t != "null")).map
          (fun t => r2 (s.withType (some (.single t))) d g f) :=
        List.map_congr_left (fun t _ => h _ d g f (weight_withType_lt ht t))
      simp only [h _ d g f (weight_withType_lt ht _), hmap]

/-- Agreement of two recursive occurrences on the enum check and type
switch. -/
theorem jszSwitch_congr (r1 r2 : TransFn) (s : JsonSchema) (d : Nat)
    (g : Option (List (String × SubSchema))) (f : Option String)
    (h : ∀ s2 d2 g2 f2, weight s2 < weight s → r1 s2 d2 g2 f2 = r2 s2 d2 g2 f2) :
    jszSwitch r1 s d g f = jszSwitch r2 s d g f := by
  unfold jszSwitch
  cases ht : s.type with
  | none => rfl
  | some tsp =>
    cases tsp with
    | multi types => rfl
    | single tt =>
      simp only [jszArray_congr r1 r2 s d g h, jszObject_congr r1 r2 s d g h]

/-- Two translator bodies agree when the recursive occurrences agree on
all strictly lighter nodes. -/
theorem jszBody_congr (r1 r2 : TransFn) (s : JsonSchema) (d : Nat)
    (g : Option (List (String × SubSchema))) (f : Option String)
    (h : ∀ s2 d2 g2 f2, weight s2 < weight s → r1 s2 d2 g2 f2 = r2 s2 d2 g2 f2) :
    jszBody r1 s d g f = jszBody r2 s d g f := by
  unfold jszBody
  simp only [jszMulti_congr r1 r2 s d g f h, jszSwitch_congr r1 r2 s d g f h]

/-- Any sufficient fuel computes the translator's fixed point: the zero
case of `jszFuel` is unreachable with fuel above the node's weight. -/
theorem jszFuel_stable : ∀ (fuel : Nat) (s : JsonSchema) (d : Nat)
    (g : Option (List (String × SubSchema))) (fn : Option String), weight s < fuel →
    jszFuel fuel s d g fn = jszFuel (weight s + 1) s d g fn := by
  intro fuel
  induction fuel using Nat.strong_induction_on with
  | _ fuel ih =>
    intro s d g fn h
    cases fuel with
    | zero => exact absurd h (Nat.not_lt_zero _)
    | succ a =>
      show jszBody (jszFuel a) s d g fn = jszBody (jszFuel (weight s)) s d g fn
      apply jszBody_congr
      intro s2 d2 g2 f2 hw
      rw [ih a (by omega) s2 d2 g2 f2 (by omega), ih (weight s) (by omega) s2 d2 g2 f2 hw]

/-- The defining equation of the translator: `jsonSchemaToZod` satisfies
the source's recursion. -/
theorem jsonSchemaToZod_eq (s : JsonSchema) (d : Nat)
    (g : Option (List (String × SubSchema))) (fn : Option String) :
    jsonSchemaToZod s d g fn = jszBody jsonSchemaToZod s d g fn := by
  show jszBody (jszFuel (weight s)) s d g fn = jszBody jsonSchemaToZod s d g fn
  apply jszBody_congr
  intro s2 d2 g2 f2 hw
  show jszFuel (weight s) s2 d2 g2 f2 = jszFuel (weight s2 + 1) s2 d2 g2 f2
  exact jszFuel_stable (weight s) s2 d2 g2 f2 hw

/-- Registry hit: the translator returns the bound name and nothing else. -/
theorem jsz_hit {g : Option (List (String × SubSchema))} {s : JsonSchema} {n : String}
    (h : substOf g s = some n) (d : Nat) (fn : Option String) :
    jsonSchemaToZod s d g fn = n := by
  rw [jsonSchemaToZod_eq]
  unfold jszBody
  rw [h]

/-- Registry miss: the translator proceeds to multi-type handling and the
switch. -/
theorem jsz_miss {g : Option (List (String × SubSchema))} {s : JsonSchema}
    (h : substOf g s = none) (d : Nat) (fn : Option String) :
    jsonSchemaToZod s d g fn =
      match jszMulti jsonSchemaToZod s d g fn with
      | some r => r
      | none => jszSwitch jsonSchemaToZod s d g fn := by
  rw [jsonSchemaToZod_eq]
  unfold jszBody
  rw [h]

/-- On a single-tag node the multi-type handling falls through. -/
theorem jszMulti_single {s : JsonSchema} {tt : String}
    (ht : s.type = some (.single tt)) (rec : TransFn) (d : Nat)
    (g : Option (List (String × SubSchema))) (fn : Option String) :
    jszMulti rec s d g fn = none := by
  unfold jszMulti
  rw [ht]

/-- Registry miss on a single-tag node: the translator lands in the enum
check and the type switch. -/
theorem jsz_single {g : Option (List (String × SubSchema))} {s : JsonSchema} {tt : String}
    (h : substOf g s = none) (ht : s.type = some (.single tt)) (d : Nat) (fn : Option String) :
    jsonSchemaToZod s d g fn = jszSwitch jsonSchemaToZod s d g fn := by
  rw [jsz_miss h, jszMulti_single ht]

/-- Object branch of the translator under a registry miss. -/
theorem jsz_object_eq {g : Option (List (String × SubSchema))} {s : JsonSchema}
    {ps : List (String × JsonSchema)}
    (h : substOf g s = none) (ht : s.type = some (.single "object"))
    (he : s.enum = none) (hp : s.properties = some ps) (d : Nat) (fn : Option String) :
    jsonSchemaToZod s d g fn =
      appendDescribe s.description
        ("z.object(\x7b\n" ++
         String.intercalate ",\n" (ps.map (jszField jsonSchemaToZod s d g)) ++
         "\n" ++ indentOf d ++ "\x7d)") := by
  rw [jsz_single h ht]
  unfold jszSwitch
  rw [he, ht]
  simp only [Option.isSome_none, Bool.false_eq_true, if_false, reduceIte]
  unfold jszObject
  rw [hp]
  rfl

/-- Under a registry miss and a single `object` tag with no enum, the
translator computes the object case. -/
theorem jsz_object_case {g : Option (List (String × SubSchema))} {s : JsonSchema}
    (h : substOf g s = none) (ht : s.type = some (.single "object"))
    (he : s.enum = none) (d : Nat) (fn : Option String) :
    jsonSchemaToZod s d g fn = jszObject jsonSchemaToZod s d g := by
  rw [jsz_single h ht]
  unfold jszSwitch
  rw [he, ht]
  rfl

/-- Under a registry miss and a single `array` tag with no enum, the
translator computes the array case. -/
theorem jsz_array_case {g : Option (List (String × SubSchema))} {s : JsonSchema}
    (h : substOf g s = none) (ht : s.type = some (.single "array"))
    (he : s.enum = none) (d : Nat) (fn : Option String) :
    jsonSchemaToZod s d g fn = jszArray jsonSchemaToZod s d g := by
  rw [jsz_single h ht]
  unfold jszSwitch
  rw [he, ht]
  rfl

/-- Under a registry miss and a single `string` tag with no enum, the
translator computes the string case. -/
theorem jsz_string_case {g : Option (List (String × SubSchema))} {s : JsonSchema}
    (h : substOf g s = none) (ht : s.type = some (.single "string"))
    (he : s.enum = none) (d : Nat) (fn : Option String) :
    jsonSchemaToZod s d g fn = jszString s fn := by
  rw [jsz_single h ht]
  unfold jszSwitch
  rw [he, ht]
  rfl

/-- Under a registry miss, a multi-type node whose non-null tags are
exactly `[t]` and which mentions `null` collapses to the single-type
translation wrapped in `.nullable()`. -/
theorem jsz_nullable {g : Option (List (String × SubSchema))} {s : JsonSchema}
    {ts : List String} {t : String}
    (h : substOf g s = none) (ht : s.type = some (.multi ts))
    (hf : ts.filter (fun x => x != "null") = [t])
    (hn : ts.contains "null" = true) (d : Nat) (fn : Option String) :
    jsonSchemaToZod s d g fn =
      jsonSchemaToZod (s.withType (some (.single t))) d g fn ++ ".nullable()" := by
  rw [jsz_miss h]
  unfold jszMulti
  rw [ht]
  simp only [hf, hn]
  rfl

/-- The registration step preserves the discovery-state invariant: a fresh
signature is appended to map and visited set together, a visited or
colliding one changes nothing. -/
theorem registerStep_inv (s : JsonSchema) (path : String)
    {subs : List (String × SubSchema)} {visited : List String}
    (h : WalkInv subs visited) :
    WalkInv (registerStep s path subs visited).1 (registerStep s path subs visited).2 := by
  obtain ⟨hk, hv, hn⟩ := h
  unfold registerStep
  dsimp only
  split
  · split
    · rename_i hc hnm
      refine ⟨by simp [hk], ?_, ?_⟩
      · have hns : serialize s ∉ visited := by
          rw [Bool.and_eq_true] at hc
          have := hc.1
          simp only [Bool.not_eq_true'] at this
          simpa using this
        simp [List.nodup_append, hv, hns]
      · have hfresh : ∀ e ∈ subs, (e.2.name == generateSchemaName path) = false := by
          simp only [Bool.not_eq_true'] at hnm
          simpa [List.any_eq_false] using hnm
        have hnm2 : generateSchemaName path ∉ subs.map (fun e => e.2.name) := by
          intro hmem
          obtain ⟨e, he, heq⟩ := List.mem_map.mp hmem
          have := hfresh e he
          rw [heq] at this
          simp at this
        simp [List.nodup_append, hn, hnm2]
    · exact ⟨hk, hv, hn⟩
  · exact ⟨hk, hv, hn⟩

mutual
/-- The walk preserves the discovery-state invariant. -/
theorem findSubSchemas_inv (s : JsonSchema) (subs : List (String × SubSchema))
    (path : String) (visited : List String) (h : WalkInv subs visited) :
    WalkInv (findSubSchemas s subs path visited).1 (findSubSchemas s subs path visited).2 := by
  cases s with
  | mk t props items r e pa mn mx mni mxi f dsc ap =>
    rw [findSubSchemas.eq_def]
    dsimp only
    split
    · cases props with
      | some ps => exact findSubList_inv ps _ path _ (registerStep_inv _ path h)
      | none => exact h
    · split
      · cases items with
        | some it => exact findSubSchemas_inv it subs (path ++ ".items") visited h
        | none => exact h
      · exact h
termination_by weight s
decreasing_by
  all_goals simp [weight, weightProps, weightOptProps, weightOptSchema, typeWeight, weightAP]
  all_goals omega

/-- The property loop of the walk preserves the invariant. -/
theorem findSubList_inv (ps : List (String × JsonSchema)) (subs : List (String × SubSchema))
    (path : String) (visited : List String) (h : WalkInv subs visited) :
    WalkInv (findSubList ps subs path visited).1 (findSubList ps subs path visited).2 := by
  cases ps with
  | nil => exact h
  | cons kv rest =>
    obtain ⟨k, v⟩ := kv
    rw [findSubList.eq_def]
    dsimp only
    exact findSubList_inv rest _ path _ (findSubSchemas_inv v subs (path ++ "." ++ k) visited h)
termination_by weightProps ps
decreasing_by
  all_goals simp [weight, weightProps, weightOptProps, weightOptSchema, typeWeight, weightAP]
  all_goals omega
end

/-- With pairwise-distinct keys, the registry lookup returns the bound
entry's name for any member. -/
theorem lookupReg_mem {k : String} {en : SubSchema} :
    ∀ r : List (String × SubSchema), (r.map Prod.fst).Nodup → (k, en) ∈ r →
    lookupReg r k = some en.name := by
  intro r
  induction r with
  | nil => intro _ hm; cases hm
  | cons hd tl ih =>
    intro hnd hm
    obtain ⟨k0, e0⟩ := hd
    rcases List.mem_cons.mp hm with h1 | h1
    · obtain ⟨hk, he⟩ := Prod.mk.injEq .. ▸ h1
      subst hk
      cases he
      simp [lookupReg]
    · have hk0 : k ≠ k0 := by
        intro hkk
        subst hkk
        have : k ∈ tl.map Prod.fst := List.mem_map.mpr ⟨(k, en), h1, rfl⟩
        simp only [List.map_cons, List.nodup_cons] at hnd
        exact hnd.1 this
      have : (k0 == k) = false := by
        simp [BEq.beq]
        exact fun hkk => hk0 hkk.symm
      simp only [lookupReg, this]
      exact ih (by simp only [List.map_cons, List.nodup_cons] at hnd; exact hnd.2) h1

/-- Stable descending insertion permutes to consing. -/
theorem insertEntryDesc_perm (x : String × SubSchema) :
    ∀ l : List (String × SubSchema), List.Perm (insertEntryDesc x l) (x :: l) := by
  intro l
  induction l with
  | nil => simp [insertEntryDesc]
  | cons y ys ih =>
    unfold insertEntryDesc
    split
    · rfl
    · exact (ih.cons y).trans (List.Perm.swap x y ys)

/-- The emission sort permutes the discovered entries. -/
theorem sortEntriesDesc_perm : ∀ (l acc : List (String × SubSchema)),
    List.Perm (l.foldl (fun acc x => insertEntryDesc x acc) acc) (acc ++ l) := by
  intro l
  induction l with
  | nil => intro acc; simp
  | cons x xs ih =>
    intro acc
    have h1 := ih (insertEntryDesc x acc)
    have h2 := (insertEntryDesc_perm x acc).append_right xs
    have h3 : List.Perm ((x :: acc) ++ xs) (acc ++ x :: xs) := List.perm_middle.symm
    exact (h1.trans h2).trans h3

/-- C9: the translation pipeline is deterministic — running discovery,
ordering, per-entry translation and root translation twice on the same
document yields byte-identical output text.  The embedded pipeline is a
pure function (the source's iteration orders — insertion-ordered maps and
a stable sort — are fixed by the embedding), so the two-run equality
holds definitionally. -/
theorem c9_determinism (doc : JsonSchema) (basename : String) :
    generateZodSchema doc basename = generateZodSchema doc basename := rfl

/-- C4: whenever the node's serialized signature is bound in a non-empty
Processed Registry, the translator returns the bound identifier name
verbatim, applying no other rule; and the final root translation goes
through the same translator against the completed registry, so the check
applies to it as well. -/
theorem c4_substitution_check :
    (∀ (s : JsonSchema) (d : Nat) (r : List (String × SubSchema)) (fn : Option String)
      (n : String), lookupReg r (serialize s) = some n →
      jsonSchemaToZod s d (some r) fn = n) ∧
    (∀ doc : JsonSchema,
      rootCodeOf doc = jsonSchemaToZod doc 0 (some (processedOf doc)) none) :=
  ⟨fun s d r fn n h => jsz_hit (show substOf (some r) s = some n from h) d fn,
   fun _ => rfl⟩

/-- Witness for C4: a registry binding the signature of
`\x7b"type":"string"\x7d` to `FooSchema` makes the translator return
`FooSchema` verbatim. -/
theorem c4_substitution_check_witness :
    jsonSchemaToZod strNode 0 (some regW) none = "FooSchema" :=
  c4_substitution_check.1 strNode 0 regW none "FooSchema" rfl

/-- Counterexample for C3 as stated: for
`\x7b"type":"object","additionalProperties":true\x7d` the translator emits
`z.record(z.string())`, whose value validator is the string validator —
not the permissive-value map `z.record(z.any())` (in the target library's
one-argument record form, the argument is the value schema; compare line
225 of the source, where a schema-valued `additionalProperties` is
translated into that same argument position). -/
theorem c3_counterexample :
    jsonSchemaToZod apDoc 0 none none = "z.record(z.string())" ∧
    jsonSchemaToZod apDoc 0 none none ≠ "z.record(z.any())" :=
  ⟨rfl, by decide⟩

/-- C3 as amended: for every object-typed node with no properties mapping
whose `additionalProperties` is boolean `true`, the translator emits
`z.record(z.string())` — a string-keyed map validator whose value
validator is the string validator. -/
theorem c3_amended_record_string (s : JsonSchema) (d : Nat)
    (g : Option (List (String × SubSchema))) (fn : Option String)
    (h : substOf g s = none) (ht : s.type = some (.single "object"))
    (he : s.enum = none) (hp : s.properties = none)
    (hap : s.additionalProperties = some (.inl true)) :
    jsonSchemaToZod s d g fn = "z.record(z.string())" := by
  rw [jsz_object_case h ht he]
  unfold jszObject
  rw [hp, hap]

/-- Witness for the amended C3 at the concrete node `apDoc`. -/
theorem c3_amended_record_string_witness :
    jsonSchemaToZod apDoc 0 none none = "z.record(z.string())" :=
  c3_amended_record_string apDoc 0 none none rfl rfl rfl rfl rfl

/-- Counterexample for C2 as stated: at the walk state reached just after
`obA` was registered as `XSchema`, the node `obB` — object-typed with
properties, at the two-segment path `.q.x`, signature not yet visited,
candidate name `XSchema` colliding with the existing entry — is NOT added
to the visited set: the registration step leaves both the map and the
visited set unchanged, and after the full walk of `docPQR` the signature
of `obB` is still unvisited. -/
theorem c2_counterexample :
    ([serialize obA].contains (serialize obB)) = false ∧
    strContains ".q.x" "." = true ∧
    (([(serialize obA, (⟨"XSchema", obA, ".p.x"⟩ : SubSchema))].any
        fun e => e.2.name == generateSchemaName ".q.x") = true) ∧
    registerStep obB ".q.x"
        [(serialize obA, ⟨"XSchema", obA, ".p.x"⟩)] [serialize obA]
      = ([(serialize obA, ⟨"XSchema", obA, ".p.x"⟩)], [serialize obA]) ∧
    (discoverVisited docPQR).contains (serialize obB) = false :=
  ⟨by decide, rfl, rfl, rfl, by decide⟩

/-- C2 as amended: during the walk's registration step, the signature is
added to the visited set iff a fresh entry is actually registered.  When
the candidate name collides with an already-discovered entry's name, the
step changes neither the discovery map nor the visited set (so the shape
is re-attempted on later encounters); when it does not collide, signature
and entry are appended together. -/
theorem c2_amended_visited_iff_registered :
    ∀ (s : JsonSchema) (path : String) (subs : List (String × SubSchema))
      (visited : List String),
      visited.contains (serialize s) = false → strContains path "." = true →
      (((subs.any fun e => e.2.name == generateSchemaName path) = true →
        registerStep s path subs visited = (subs, visited)) ∧
       ((subs.any fun e => e.2.name == generateSchemaName path) = false →
        registerStep s path subs visited =
          (subs ++ [(serialize s, ⟨generateSchemaName path, s, path⟩)],
           visited ++ [serialize s]))) := by
  intro s path subs visited h1 h2
  constructor
  · intro h3
    unfold registerStep
    simp [h1, h2, h3]
  · intro h3
    unfold registerStep
    simp [h1, h2, h3]
    simpa using h1

/-- Witness for the amended C2: the collision case at `.q.x` leaves the
state unchanged, and the same node at a collision-free state is
registered with signature and visited set appended together. -/
theorem c2_amended_visited_iff_registered_witness :
    registerStep obB ".q.x"
        [(serialize obA, ⟨"XSchema", obA, ".p.x"⟩)] [serialize obA]
      = ([(serialize obA, ⟨"XSchema", obA, ".p.x"⟩)], [serialize obA]) ∧
    registerStep obB ".q.x" [] []
      = ([(serialize obB, ⟨"XSchema", obB, ".q.x"⟩)], [serialize obB]) :=
  ⟨(c2_amended_visited_iff_registered obB ".q.x"
      [(serialize obA, ⟨"XSchema", obA, ".p.x"⟩)] [serialize obA]
      (by decide) rfl).1 rfl,
   by
    have h := (c2_amended_visited_iff_registered obB ".q.x" [] [] rfl rfl).2 rfl
    rw [h]
    rfl⟩

/-- Counterexample for C1 as stated: in `docPQR` the node `obB` is a
non-root object-shaped node occurring twice (under `q.x` and `r.x`), yet
its signature gives rise to ZERO sub-schema declarations — the candidate
name `XSchema` collides with the entry of the structurally different
`obA` at both encounters — and its occurrence inside the `QSchema`
declaration is an inline expansion, not a reference. -/
theorem c1_counterexample :
    qNode.properties = some [("x", obB)] ∧
    docPQR.properties = some [("p", pNode), ("q", qNode), ("r", qNode)] ∧
    ((discoverEntries docPQR).map Prod.fst).count (serialize obB) = 0 ∧
    ((sortedEntries docPQR).map Prod.fst).count (serialize obB) = 0 ∧
    subSchemaCodeOf docPQR =
      "const XSchema = z.object(\x7b\n  a1: z.string().optional()\n\x7d);\n\n" ++
      "const PSchema = z.object(\x7b\n  x: XSchema.optional()\n\x7d);\n\n" ++
      "const QSchema = z.object(\x7b\n  x: z.object(\x7b\n    b1: z.boolean().optional()\n  \x7d).optional()\n\x7d);\n\n" ∧
    rootCodeOf docPQR =
      "z.object(\x7b\n  p: PSchema.optional(),\n  q: QSchema.optional(),\n  r: QSchema.optional()\n\x7d)" :=
  ⟨rfl, rfl, by decide, by decide, rfl, rfl⟩

/-- C1 as amended: each signature is registered at most once (the
discovered keys are pairwise distinct, as are the registered names, and
the sorted entry list emitted as declarations keeps the keys distinct),
and whenever a node whose signature is bound in the registry in force is
reached by the translator, the bound declaration name is emitted instead
of an inline expansion.  A signature whose candidate name collides with
an earlier entry's name at every encounter is never registered and is
expanded inline (see the counterexample). -/
theorem c1_amended_dedup :
    (∀ doc : JsonSchema,
      ((discoverEntries doc).map Prod.fst).Nodup ∧
      ((discoverEntries doc).map (fun e => e.2.name)).Nodup ∧
      ((sortedEntries doc).map Prod.fst).Nodup) ∧
    (∀ (r : List (String × SubSchema)) (k : String) (en : SubSchema),
      (r.map Prod.fst).Nodup → (k, en) ∈ r →
      ∀ (s : JsonSchema) (d : Nat) (fn : Option String), serialize s = k →
      jsonSchemaToZod s d (some r) fn = en.name) := by
  constructor
  · intro doc
    obtain ⟨hk, hv, hn⟩ :=
      findSubSchemas_inv doc [] "" [] ⟨rfl, List.nodup_nil, List.nodup_nil⟩
    refine ⟨hk ▸ hv, hn, ?_⟩
    have hperm : List.Perm (sortedEntries doc) (discoverEntries doc) := by
      have := sortEntriesDesc_perm (discoverEntries doc) []
      simpa [sortedEntries, sortEntriesDesc] using this
    exact ((hperm.map Prod.fst).nodup_iff).mpr (hk ▸ hv)
  · intro r k en hnd hm s d fn hs
    exact jsz_hit (show substOf (some r) s = some en.name from by
      show lookupReg r (serialize s) = some en.name
      rw [hs]
      exact lookupReg_mem r hnd hm) d fn

/-- Witness for the amended C1: a two-entry registry with distinct keys
substitutes the name bound to the signature of `obA`. -/
theorem c1_amended_dedup_witness :
    jsonSchemaToZod obA 3 (some [(serialize obA, ⟨"XSchema", obA, ".p.x"⟩),
      (serialize obB, ⟨"BSchema", obB, ".q.x"⟩)]) none = "XSchema" :=
  c1_amended_dedup.2
    [(serialize obA, ⟨"XSchema", obA, ".p.x"⟩), (serialize obB, ⟨"BSchema", obB, ".q.x"⟩)]
    (serialize obA) ⟨"XSchema", obA, ".p.x"⟩ (by decide)
    (List.mem_cons_self _ _) obA 3 none rfl

/-- C5: for every object-typed node reaching the object rule with a
properties mapping `ps`, the emitted validator lists one field per
property in declared order, and a property's field carries no
`.optional()` marker iff its name is in the required set; with no
required set every property is optional. -/
theorem c5_required_optional (s : JsonSchema) (ps : List (String × JsonSchema)) (d : Nat)
    (g : Option (List (String × SubSchema))) (fn : Option String)
    (h : substOf g s = none) (ht : s.type = some (.single "object"))
    (he : s.enum = none) (hp : s.properties = some ps) :
    jsonSchemaToZod s d g fn =
      appendDescribe s.description
        ("z.object(\x7b\n" ++
         String.intercalate ",\n" (ps.map (jszField jsonSchemaToZod s d g)) ++
         "\n" ++ indentOf d ++ "\x7d)") ∧
    (∀ kv ∈ ps, kv.1 ∈ s.required.getD [] →
      jszField jsonSchemaToZod s d g kv =
        indentOf d ++ "  " ++ formatPropertyName kv.1 ++ ": " ++
        jsonSchemaToZod kv.2 (d + 1) g (some kv.1)) ∧
    (∀ kv ∈ ps, kv.1 ∉ s.required.getD [] →
      jszField jsonSchemaToZod s d g kv =
        indentOf d ++ "  " ++ formatPropertyName kv.1 ++ ": " ++
        jsonSchemaToZod kv.2 (d + 1) g (some kv.1) ++ ".optional()") ∧
    (s.required = none → ∀ kv ∈ ps,
      jszField jsonSchemaToZod s d g kv =
        indentOf d ++ "  " ++ formatPropertyName kv.1 ++ ": " ++
        jsonSchemaToZod kv.2 (d + 1) g (some kv.1) ++ ".optional()") := by
  refine ⟨jsz_object_eq h ht he hp d fn, ?_, ?_, ?_⟩
  · intro kv _ hmem
    unfold jszField
    rw [if_pos (by simpa using hmem)]
    simp
  · intro kv _ hmem
    unfold jszField
    rw [if_neg (by simpa using hmem)]
  · intro hr kv _
    unfold jszField
    rw [hr]
    rfl

/-- Witness for C5 at the node
`\x7b type: object, properties: \x7b uuid: string, note: string \x7d, required: ["uuid"] \x7d`:
the required `uuid` field has no optional marker, the non-required `note`
field has one. -/
theorem c5_required_optional_witness :
    jsonSchemaToZod docC5 0 none none =
      "z.object(\x7b\n  uuid: z.string().uuid(),\n  note: z.string().optional()\n\x7d)" ∧
    jszField jsonSchemaToZod docC5 0 none ("uuid", strNode) = "  uuid: z.string().uuid()" ∧
    jszField jsonSchemaToZod docC5 0 none ("note", strNode) = "  note: z.string().optional()" := by
  obtain ⟨h1, h2, h3, _⟩ :=
    c5_required_optional docC5 [("uuid", strNode), ("note", strNode)] 0 none none rfl rfl rfl rfl
  refine ⟨h1.trans (by rfl), ?_, ?_⟩
  · exact (h2 ("uuid", strNode) (List.mem_cons_self _ _) (by decide)).trans (by rfl)
  · exact (h3 ("note", strNode)
      (List.mem_cons_of_mem _ (List.mem_cons_self _ _)) (by decide)).trans (by rfl)

/-- C6: for every array-typed node reaching the array rule with an
element schema, equal present `minItems = maxItems = k` produce exactly a
`.length(k)` constraint and no separate `.min`/`.max`, while unequal
present bounds produce independent `.min(a).max(b)` constraints. -/
theorem c6_array_length (s : JsonSchema) (it : JsonSchema) (d : Nat)
    (g : Option (List (String × SubSchema))) (fn : Option String)
    (h : substOf g s = none) (ht : s.type = some (.single "array"))
    (he : s.enum = none) (hi : s.items = some it) :
    (∀ k : Nat, s.minItems = some k → s.maxItems = some k →
      jsonSchemaToZod s d g fn =
        appendDescribe s.description
          ("z.array(" ++ jsonSchemaToZod it d g none ++ ")" ++
           ".length(" ++ toString k ++ ")")) ∧
    (∀ a b : Nat, s.minItems = some a → s.maxItems = some b → a ≠ b →
      jsonSchemaToZod s d g fn =
        appendDescribe s.description
          ("z.array(" ++ jsonSchemaToZod it d g none ++ ")" ++
           ".min(" ++ toString a ++ ")" ++ ".max(" ++ toString b ++ ")")) := by
  constructor
  · intro k hmin hmax
    rw [jsz_array_case h ht he]
    unfold jszArray
    rw [hi, hmin, hmax]
    simp
  · intro a b hmin hmax hne
    rw [jsz_array_case h ht he]
    unfold jszArray
    rw [hi, hmin, hmax]
    simp [hne]

/-- Witness for C6: `minItems = maxItems = 3` gives an exact length
constraint; `minItems = 1, maxItems = 4` gives independent bounds. -/
theorem c6_array_length_witness :
    jsonSchemaToZod arrEq 0 none none = "z.array(z.number().int()).length(3)" ∧
    jsonSchemaToZod arrNe 0 none none = "z.array(z.number().int()).min(1).max(4)" :=
  ⟨((c6_array_length arrEq intNode 0 none none rfl rfl rfl rfl).1
      3 rfl rfl).trans (by rfl),
   ((c6_array_length arrNe intNode 0 none none rfl rfl rfl rfl).2
      1 4 rfl rfl (by decide)).trans (by rfl)⟩

/-- C7: a node whose type specifier is a set of exactly two tags, one of
which is `null` and the other a distinct tag `t`, is translated as the
single-type variant (the same node with type `t`) wrapped in
`.nullable()` — never as a one-element union. -/
theorem c7_nullable_pair (s : JsonSchema) (t : String) (d : Nat)
    (g : Option (List (String × SubSchema))) (fn : Option String)
    (h : substOf g s = none)
    (ht : s.type = some (.multi [t, "null"]) ∨ s.type = some (.multi ["null", t]))
    (hne : t ≠ "null") :
    jsonSchemaToZod s d g fn =
      jsonSchemaToZod (s.withType (some (.single t))) d g fn ++ ".nullable()" := by
  have hft : (t != "null") = true := by simp [hne]
  rcases ht with ht | ht
  · exact jsz_nullable h ht (by simp [List.filter, hft]) (by simp) d fn
  · exact jsz_nullable h ht (by simp [List.filter, hft]) (by simp) d fn

/-- Witness for C7 at `\x7b"type":["string","null"],"format":"date-time"\x7d`:
the translation is the string-variant translation wrapped in
`.nullable()`, and never a one-element union. -/
theorem c7_nullable_pair_witness :
    jsonSchemaToZod nulStr 0 none none = "z.string().datetime().nullable()" :=
  (c7_nullable_pair nulStr "string" 0 none none rfl (Or.inl rfl) (by decide)).trans (by rfl)

/-- C8: for every string-typed node reaching the string rule with no
pattern, when the enclosing field name case-insensitively equals `uuid`,
ends with `_id`, or contains `uuid` or `guid` as a substring, the emitted
string validator carries the `.uuid()` format constraint (followed by the
orthogonal date-time and description suffixes when those fields are
present). -/
theorem c8_uuid_heuristic (s : JsonSchema) (f : String) (d : Nat)
    (g : Option (List (String × SubSchema)))
    (h : substOf g s = none) (ht : s.type = some (.single "string"))
    (he : s.enum = none) (hp : s.pattern = none) (hf : f ≠ "")
    (hcond : (strToLower f == "uuid" || strEndsWith (strToLower f) "_id" ||
              strContains (strToLower f) "uuid" ||
              strContains (strToLower f) "guid") = true) :
    jsonSchemaToZod s d g (some f) =
      appendDescribe s.description
        (if s.format == some "date-time" then "z.string().uuid()" ++ ".datetime()"
         else "z.string().uuid()") := by
  rw [jsz_string_case h ht he]
  unfold jszString
  rw [hp]
  have hfne : (f != "") = true := by simp [hf]
  simp only [strTruthy, Bool.false_and, Bool.false_eq_true, if_false, Option.getD_some,
    hfne, hcond]
  rfl

/-- Witness for C8: a plain string node under the field name `user_id`
gets a UUID-format constraint. -/
theorem c8_uuid_heuristic_witness :
    jsonSchemaToZod strNode 0 none (some "user_id") = "z.string().uuid()" :=
  (c8_uuid_heuristic strNode "user_id" 0 none rfl rfl rfl rfl (by decide)
    (by decide)).trans (by rfl)

/-- C10 (implicit): a property name matching `^[a-zA-Z_$][a-zA-Z0-9_$]*$`
is written bare, any other property name is written as a JSON-quoted
string key, and the object rule emits one field per property, in declared
order, through `formatPropertyName`. -/
theorem c10_property_name_format :
    (∀ name : String, isValidIdentifier name = true →
      formatPropertyName name = name) ∧
    (∀ name : String, isValidIdentifier name = false →
      formatPropertyName name = jsonStringify name) ∧
    (∀ (s : JsonSchema) (ps : List (String × JsonSchema)) (d : Nat)
      (g : Option (List (String × SubSchema))) (fn : Option String),
      substOf g s = none → s.type = some (.single "object") → s.enum = none →
      s.properties = some ps →
      jsonSchemaToZod s d g fn =
        appendDescribe s.description
          ("z.object(\x7b\n" ++
           String.intercalate ",\n" (ps.map (jszField jsonSchemaToZod s d g)) ++
           "\n" ++ indentOf d ++ "\x7d)") ∧
      ∀ kv ∈ ps, jszField jsonSchemaToZod s d g kv =
        indentOf d ++ "  " ++ formatPropertyName kv.1 ++ ": " ++
        jsonSchemaToZod kv.2 (d + 1) g (some kv.1) ++
        (if (s.required.getD []).contains kv.1 then "" else ".optional()")) := by
  refine ⟨?_, ?_, ?_⟩
  · intro name hv
    unfold formatPropertyName
    rw [if_pos hv]
  · intro name hv
    unfold formatPropertyName
    rw [if_neg (by simp [hv])]
  · intro s ps d g fn h ht he hp
    exact ⟨jsz_object_eq h ht he hp d fn, fun kv _ => rfl⟩

/-- Witness for C10: `ok` is a valid identifier and stays bare, `a-b` is
not and is JSON-quoted; in the object output both appear in declared
order, the quoted key first. -/
theorem c10_property_name_format_witness :
    formatPropertyName "ok" = "ok" ∧
    formatPropertyName "a-b" = "\"a-b\"" ∧
    jsonSchemaToZod docDash 0 none none =
      "z.object(\x7b\n  \"a-b\": z.string().optional(),\n  ok: z.string().optional()\n\x7d)" := by
  refine ⟨c10_property_name_format.1 "ok" (by decide), ?_, ?_⟩
  · exact (c10_property_name_format.2.1 "a-b" (by decide)).trans (by rfl)
  · exact ((c10_property_name_format.2.2 docDash [("a-b", strNode), ("ok", strNode)]
      0 none none rfl rfl rfl rfl).1).trans (by rfl)
